import Mathlib

/-!
Verification of the execman installation & update engine.

The Go packages under `pkg/install`, `pkg/update`, `pkg/remove` and
`pkg/symlink` are embedded shallowly: the filesystem is an explicit value
(regular files plus symbolic links), the registry is an explicit mapping,
and all external collaborators (GitHub release client, downloader, archive
extractor, content hashing, interactive prompt answers) are supplied as
oracle inputs, so each run of an engine is a pure, executable function from
inputs to an outcome record that carries the final filesystem, the
in-memory and persisted registry, the committed entry, the prompts issued
and the error or success result.
-/

set_option autoImplicit false

deriving instance DecidableEq for Except

namespace Execman

/-- File contents: a sequence of bytes. -/
abbrev Content := List Nat

/-- A downloadable release asset (`github.Asset`): only the name matters to
the engine logic that is being verified. -/
structure Asset where
  name : String
deriving Repr, DecidableEq

/-- A release (`github.Release`): tag plus asset list. -/
structure Release where
  tagName : String
  assets : List Asset
deriving Repr, DecidableEq

/-- One managed executable (`registry.Executable`). -/
structure Executable where
  source : String
  version : String
  installedAt : Nat
  path : String
  platform : String
  checksum : String
deriving Repr, DecidableEq

/-- Modelled from the spec: the `registry` package is not under `src/`.
Per §4.8 the registry is a mapping `name → record` with `Get`, `Add`,
`Remove`, `List`; `List` returns all names and "ordering is caller's
responsibility" — it is modelled as returning the names in stored order,
with no sorting of its own. -/
abbrev Registry := List (String × Executable)

/-- Insert-or-replace in a string-keyed association list, preserving the
stored order of existing keys. -/
def upsertAL {β : Type} (l : List (String × β)) (k : String) (v : β) : List (String × β) :=
  if (l.lookup k).isSome then
    l.map (fun p => if p.1 == k then (k, v) else p)
  else
    l ++ [(k, v)]

/-- `registry.Get`: look the name up in the mapping. -/
def regGet (reg : Registry) (name : String) : Option Executable :=
  reg.lookup name

/-- `registry.Add`: insert or replace the entry for `name`. -/
def regAdd (reg : Registry) (name : String) (e : Executable) : Registry :=
  upsertAL reg name e

/-- `registry.Remove`: drop the entry for `name`. -/
def regRemove (reg : Registry) (name : String) : Registry :=
  reg.filter (fun p => p.1 != name)

/-- `registry.List`: all names, in stored order (no sorting — "ordering is
caller's responsibility" per the spec). -/
def regList (reg : Registry) : List String :=
  reg.map (·.1)

/-! ## Filesystem model

Regular files and symbolic links, keyed by path strings.  Reading or
writing a path follows a symlink one level (as `os.ReadFile`/`os.WriteFile`
do), while `os.Lstat`/`os.Readlink` inspect the link itself and
`os.Remove` removes the link, not its target. -/

structure FS where
  files : List (String × Content)
  links : List (String × String)
deriving Repr, DecidableEq

namespace FS

/-- Content of the regular file stored at exactly this path. -/
def fileAt (fs : FS) (p : String) : Option Content :=
  fs.files.lookup p

/-- `os.Readlink`: the link target, if `p` is a symlink. -/
def readLink (fs : FS) (p : String) : Option String :=
  fs.links.lookup p

/-- `os.Lstat` reporting `ModeSymlink`. -/
def isLink (fs : FS) (p : String) : Bool :=
  (fs.readLink p).isSome

/-- The path a read or write of `p` actually lands on (one-level symlink
resolution). -/
def resolve (fs : FS) (p : String) : String :=
  match fs.readLink p with
  | some t => t
  | none => p

/-- `os.ReadFile`: bytes obtained by reading `p`, following a symlink. -/
def readBytes (fs : FS) (p : String) : Option Content :=
  fs.fileAt (fs.resolve p)

/-- `os.Stat` succeeding: the path, after following a symlink, names an
existing regular file. -/
def statExists (fs : FS) (p : String) : Bool :=
  (fs.readBytes p).isSome

/-- Replace or insert the regular file stored at exactly `q`. -/
def upsertFile (fs : FS) (q : String) (c : Content) : FS :=
  { fs with files := upsertAL fs.files q c }

/-- `os.WriteFile`: write through a symlink at `p` if one is present. -/
def writeFile (fs : FS) (p : String) (c : Content) : FS :=
  fs.upsertFile (fs.resolve p) c

/-- `os.Remove`: delete the symlink at `p` if `p` is a symlink, otherwise
delete the regular file at `p` (a no-op when nothing is there; the callers
under verification tolerate `IsNotExist`). -/
def removePath (fs : FS) (p : String) : FS :=
  if fs.isLink p then
    { fs with links := fs.links.filter (fun kv => kv.1 != p) }
  else
    { fs with files := fs.files.filter (fun kv => kv.1 != p) }

end FS

/-- `copyFile` from the update/remove packages: `os.ReadFile` then
`os.WriteFile`; fails (returns `none`) when the source cannot be read. -/
def copyFile (fs : FS) (src dst : String) : Option FS :=
  match fs.readBytes src with
  | none => none
  | some data => some (fs.writeFile dst data)

/-! ## String helpers

Character-list implementations of `strings.TrimSpace`, `strings.ToLower`,
`strings.Contains` and `strings.HasSuffix` as used by the engines. -/

/-- Whitespace recognized by `strings.TrimSpace` on the engine's inputs. -/
def isSpaceChar (c : Char) : Bool :=
  c == ' ' || c == '\t' || c == '\n' || c == '\r'

/-- `strings.TrimSpace`. -/
def trimStr (s : String) : String :=
  ⟨((s.data.dropWhile isSpaceChar).reverse.dropWhile isSpaceChar).reverse⟩

/-- Lowercase one ASCII character (`unicode.ToLower` on the engine's
ASCII inputs). -/
def lowerChar (c : Char) : Char :=
  if 64 < c.toNat ∧ c.toNat < 91 then Char.ofNat (c.toNat + 32) else c

/-- `strings.ToLower`. -/
def lowerStr (s : String) : String :=
  ⟨s.data.map lowerChar⟩

/-- Character-list prefix test. -/
def charsPrefix : List Char → List Char → Bool
  | [], _ => true
  | _ :: _, [] => false
  | a :: as, b :: bs => a == b && charsPrefix as bs

/-- Character-list containment (`strings.Contains`). -/
def charsContains : List Char → List Char → Bool
  | [], pat => pat.isEmpty
  | c :: cs, pat => charsPrefix pat (c :: cs) || charsContains cs pat

/-- `strings.Contains` on strings. -/
def strContainsSub (s pat : String) : Bool :=
  charsContains s.data pat.data

/-- `strings.HasSuffix` on strings. -/
def strHasSuffix (s pat : String) : Bool :=
  charsPrefix pat.data.reverse s.data.reverse

/-! ## The `symlink` package -/

/-- `symlink.SymlinkAction`. -/
inductive SymlinkAction where
  | actionCancel
  | actionReplaceTarget
  | actionReplaceSymlink
deriving Repr, DecidableEq

/-- `symlink.Info`. -/
structure Info where
  isSymlink : Bool
  path : String
  target : String
deriving Repr, DecidableEq

/-- `symlink.Check`: `Lstat` without following; a missing path is not a
symlink; for a symlink the target is read with `Readlink`. -/
def check (fs : FS) (path : String) : Info :=
  match fs.readLink path with
  | some t => { isSymlink := true, path := path, target := t }
  | none => { isSymlink := false, path := path, target := "" }

/-- `symlink.PromptAction`: the raw line read from the user is
whitespace-trimmed and matched against "1" and "2"; everything else
cancels. -/
def promptAction (response : String) : SymlinkAction :=
  let r := trimStr response
  if r == "1" then SymlinkAction.actionReplaceTarget
  else if r == "2" then SymlinkAction.actionReplaceSymlink
  else SymlinkAction.actionCancel

/-- `symlink.ErrorNonInteractive`: the error message produced in
non-interactive mode, naming the symlink path and its target. -/
def errorNonInteractiveMsg (symlinkPath targetPath : String) : String :=
  symlinkPath ++ " is a symlink to " ++ targetPath ++
    "\n       Cannot proceed in non-interactive mode.\n       Run without --yes to choose how to handle symlinks"

/-- `symlink.ResolveTarget`. -/
def resolveTarget (info : Info) (action : SymlinkAction) : String :=
  if action == SymlinkAction.actionReplaceTarget then info.target
  else info.path

/-! ## Interactive responses

Go reads a line and applies `strings.TrimSpace` and (for yes/no questions)
`strings.ToLower`. -/

/-- A trimmed, lowercased line equals "y" or "yes". -/
def respIsYes (r : String) : Bool :=
  let s := lowerStr (trimStr r)
  s == "y" || s == "yes"

/-- A trimmed, lowercased line equals "n" or "no". -/
def respIsNo (r : String) : Bool :=
  let s := lowerStr (trimStr r)
  s == "n" || s == "no"

/-- A trimmed, lowercased line is empty, "y" or "yes" (the `[Y/n]` default
used by the archive-cleanup question). -/
def respIsYesOrDefault (r : String) : Bool :=
  let s := lowerStr (trimStr r)
  s == "" || s == "y" || s == "yes"

/-- Modelled from the spec: `github.ToURL` (the `github` package is not
under `src/`) — the canonical repository URL for an owner/repo pair. -/
def toURL (owner repo : String) : String :=
  "https://github.com/" ++ owner ++ "/" ++ repo

/-- `filepath.Join` for the two-component joins the engines perform. -/
def pathJoin (a b : String) : String :=
  a ++ "/" ++ b

/-- The install loop's test for a checksum-manifest asset: lowercased name
contains "checksum" or ends with ".sha256". -/
def isChecksumAsset (a : Asset) : Bool :=
  strContainsSub (lowerStr a.name) "checksum" || strHasSuffix (lowerStr a.name) ".sha256"

/-! ## The install engine (`pkg/install`, `Run`)

External collaborators (GitHub client, downloader, archive code, prompt
answers, clock) are oracle inputs in `Install.Env`; the outcome records
the final filesystem, in-memory and persisted registries, the committed
entry, the prompts issued, whether the pipeline (asset finding onwards)
ran, whether the binary was placed at the target, and the contents of the
temporary download scope at exit. -/

namespace Install

/-- `install.Options`. -/
structure Options where
  source : String
  into : String
  yes : Bool

/-- Oracle inputs for one run of `install.Run`. -/
structure Env where
  loadOk : Bool
  configOk : Bool
  defaultInstallDir : String
  parsed : Option (String × String × String)
  fetchedRelease : Option Release
  findAsset : List Asset → Option Asset
  tempDirOk : Bool
  downloadAsset : Option Content
  downloadChecksums : Option Content
  manifestDigest : Option String
  archiveChecksumOk : Bool
  mkdirOk : Bool
  extract : Content → Option Content
  installedChecksumOk : Bool
  saveOk : Bool
  hash : Content → String
  reinstallResponse : String
  proceedResponse : String
  now : Nat
  goos : String
  goarch : String

/-- Outcome of one run of `install.Run`. -/
structure Out where
  result : Except String Unit
  fs : FS
  mem : Registry
  saved : Registry
  committed : Option (String × Executable)
  prompts : List String
  pipelineRan : Bool
  placed : Bool
  tempAtExit : Option Content

/-- The pipeline from "Finding matching asset" to the end of `install.Run`
(lines 108–199 of `install.go`).  The `defer os.RemoveAll(tempDir)`
registered after `os.MkdirTemp` runs on every exit, so `tempAtExit` is
`none` in every branch. -/
def pipeline (fs0 : FS) (saved0 : Registry) (env : Env) (release : Release)
    (owner repo version execName targetPath : String)
    (prompts : List String) : Out :=
  let base : Out :=
    { result := Except.ok (), fs := fs0, mem := saved0, saved := saved0,
      committed := none, prompts := prompts, pipelineRan := true,
      placed := false, tempAtExit := none }
  match env.findAsset release.assets with
  | none => { base with result := Except.error "no matching asset found" }
  | some _asset =>
    if !env.tempDirOk then
      { base with result := Except.error "failed to create temp directory" }
    else
      match env.downloadAsset with
      | none => { base with result := Except.error "download failed" }
      | some archiveBytes =>
        -- Optional checksum verification: the loop picks the first
        -- checksum-named asset and breaks; errors while fetching or
        -- parsing the manifest silently skip verification.
        let verifyErr : Option String :=
          match release.assets.find? isChecksumAsset with
          | none => none
          | some _ =>
            match env.downloadChecksums with
            | none => none
            | some _ =>
              match env.manifestDigest with
              | none => none
              | some expected =>
                if !env.archiveChecksumOk then some "failed to calculate checksum"
                else if env.hash archiveBytes != expected then some "checksum verification failed"
                else none
        match verifyErr with
        | some msg => { base with result := Except.error msg }
        | none =>
          if !env.mkdirOk then
            { base with result := Except.error "failed to create target directory" }
          else
            match env.extract archiveBytes with
            | none => { base with result := Except.error "failed to extract binary" }
            | some binBytes =>
              let fs1 := fs0.writeFile targetPath binBytes
              if !env.installedChecksumOk then
                { base with
                  result := Except.error "failed to calculate checksum",
                  fs := fs1, placed := true }
              else
                match fs1.readBytes targetPath with
                | none =>
                  { base with
                    result := Except.error "failed to calculate checksum",
                    fs := fs1, placed := true }
                | some c =>
                  let entry : Executable :=
                    { source := toURL owner repo, version := version,
                      installedAt := env.now, path := targetPath,
                      platform := env.goos ++ "/" ++ env.goarch,
                      checksum := env.hash c }
                  let mem := regAdd saved0 execName entry
                  if env.saveOk then
                    { base with
                      fs := fs1, mem := mem, saved := mem,
                      committed := some (execName, entry), placed := true }
                  else
                    { base with
                      result := Except.error "failed to save registry",
                      fs := fs1, mem := mem, placed := true }

/-- `install.Run`: load registry and config, parse the source, fetch the
release, handle the duplicate-version confirmation and the general
proceed confirmation, then run the pipeline. -/
def Run (fs0 : FS) (saved0 : Registry) (env : Env) (opts : Options) : Out :=
  let base : Out :=
    { result := Except.ok (), fs := fs0, mem := saved0, saved := saved0,
      committed := none, prompts := [], pipelineRan := false,
      placed := false, tempAtExit := none }
  if !env.loadOk then { base with result := Except.error "failed to load registry" }
  else if !env.configOk then { base with result := Except.error "failed to load config" }
  else
    match env.parsed with
    | none => { base with result := Except.error "malformed source" }
    | some (owner, repo, version0) =>
      let into := if opts.into == "" then env.defaultInstallDir else opts.into
      match env.fetchedRelease with
      | none => { base with result := Except.error "failed to fetch release" }
      | some release =>
        let version := if version0 == "" then release.tagName else version0
        let execName := repo
        let targetPath := pathJoin into execName
        let isDup :=
          match regGet saved0 execName with
          | some existing => existing.version == version
          | none => false
        let prompts1 := if isDup && !opts.yes then ["Reinstall? (y/N): "] else []
        if isDup && !opts.yes && !(respIsYes env.reinstallResponse) then
          { base with prompts := prompts1 }
        else
          let prompts2 :=
            prompts1 ++ (if !opts.yes then ["\nProceed with installation? (Y/n): "] else [])
          if !opts.yes && respIsNo env.proceedResponse then
            { base with prompts := prompts2 }
          else
            pipeline fs0 saved0 env release owner repo version execName targetPath prompts2

end Install

/-! ## The update engine (`pkg/update`, symlink-aware version)

`updateOne` performs the pre-flight existence check, symlink inspection
and resolution, version comparison (with the missing-executable reinstall
sub-flow), then downloads, extracts, checksums, optionally backs up,
replaces the binary (remove-then-write), updates the registry and saves.
`updateAll` iterates the registry's names, isolating per-item failures. -/

namespace Update

/-- Oracle inputs for one `updateOne` run. -/
structure Env where
  parsed : Option (String × String)
  latestRelease : Option Release
  recordedRelease : Option Release
  findAsset : List Asset → Option Asset
  tempDirOk : Bool
  download : Option Content
  extract : Content → Option Content
  checksumOk : Bool
  mkdirOk : Bool
  chmodOk : Bool
  saveOk : Bool
  hash : Content → String
  symlinkResponse : String
  updateResponse : String
  missingResponse : String
  backupResponse : String
  cleanupResponse : String
  now : Nat

/-- Outcome of one `updateOne` run (the Go `(bool, error)` pair plus the
final state). -/
structure Out where
  updated : Bool
  result : Except String Unit
  fs : FS
  mem : Registry
  saved : Registry
  committed : Option (String × Executable)
  prompts : List String

/-- The tail of `updateOne` from "Find matching asset" onwards
(lines 636–733 of the update source): download, extract, checksum the
extracted binary, ensure the target directory, optionally back up, then
remove-then-write at `effectivePath`, chmod, update the registry entry
(path switched to `effectivePath` when the symlink itself was replaced)
and save; finally the interactive archive-cleanup question, which copies
the archive to the current directory (`filepath.Join(".", asset.Name)` =
the asset name) when the user declines deletion.  The temp directory is
removed by `defer` on every exit. -/
def installPhase (fs0 : FS) (reg0 saved0 : Registry) (name : String)
    (exec : Executable) (release : Release) (newVersion : String)
    (effectivePath : String) (replacedSymlink : Bool)
    (createBackup : Bool) (yes : Bool) (env : Env) (prompts0 : List String) : Out :=
  let base : Out :=
    { updated := false, result := Except.ok (), fs := fs0,
      mem := reg0, saved := saved0, committed := none, prompts := prompts0 }
  match env.findAsset release.assets with
  | none => { base with result := Except.error "no matching asset found" }
  | some asset =>
    if !env.tempDirOk then
      { base with result := Except.error "failed to create temp directory" }
    else
      match env.download with
      | none => { base with result := Except.error "download failed" }
      | some archiveBytes =>
        match env.extract archiveBytes with
        | none => { base with result := Except.error "failed to extract binary" }
        | some binBytes =>
          if !env.checksumOk then
            { base with result := Except.error "failed to calculate checksum" }
          else
            let checksum := env.hash binBytes
            if !env.mkdirOk then
              { base with result := Except.error "failed to create target directory" }
            else
              let backed : Option FS :=
                if createBackup then copyFile fs0 effectivePath (effectivePath ++ ".backup")
                else some fs0
              match backed with
              | none => { base with result := Except.error "failed to create backup" }
              | some fs1 =>
                let fs2 := fs1.removePath effectivePath
                let fs3 := fs2.writeFile effectivePath binBytes
                if !env.chmodOk then
                  { base with
                    result := Except.error "failed to set executable permissions",
                    fs := fs3 }
                else
                  let newPath := if replacedSymlink then effectivePath else exec.path
                  let entry : Executable :=
                    { exec with
                      path := newPath, version := newVersion,
                      checksum := checksum, installedAt := env.now }
                  let mem := regAdd reg0 name entry
                  if !env.saveOk then
                    { base with
                      result := Except.error "failed to update registry",
                      fs := fs3, mem := mem }
                  else
                    let prompts2 :=
                      prompts0 ++ (if !yes then ["Delete download archive? [Y/n]: "] else [])
                    let fs4 :=
                      if !yes && !(respIsYesOrDefault env.cleanupResponse) then
                        fs3.writeFile asset.name archiveBytes
                      else fs3
                    { base with
                      updated := true, fs := fs4, mem := mem, saved := mem,
                      committed := some (name, entry), prompts := prompts2 }

/-- The middle of `updateOne` for a present (non-missing) executable once
symlink handling has fixed `effectivePath`: parse the source, fetch the
latest release, return "already up to date" when versions coincide, run
the interactive update and backup confirmations, then the install phase. -/
def presentFlow (fs0 : FS) (reg0 saved0 : Registry) (name : String)
    (exec : Executable) (effectivePath : String) (replacedSymlink : Bool)
    (yes : Bool) (env : Env) (prompts0 : List String) : Out :=
  let base : Out :=
    { updated := false, result := Except.ok (), fs := fs0,
      mem := reg0, saved := saved0, committed := none, prompts := prompts0 }
  match env.parsed with
  | none => { base with result := Except.error "malformed source" }
  | some _ =>
    match env.latestRelease with
    | none => { base with result := Except.error "failed to fetch release" }
    | some release =>
      if exec.version == release.tagName then
        { base with prompts := prompts0 }
      else
        let prompts1 :=
          prompts0 ++ (if !yes then ["Update? [y/N]: "] else [])
        if !yes && !(respIsYes env.updateResponse) then
          { base with prompts := prompts1 }
        else
          let prompts2 :=
            prompts1 ++ (if !yes then ["Create backup of current executable? [y/N]: "] else [])
          let createBackup := !yes && respIsYes env.backupResponse
          installPhase fs0 reg0 saved0 name exec release release.tagName
            effectivePath replacedSymlink createBackup yes env prompts2

/-- The middle of `updateOne` for a missing executable: parse and fetch,
then the reinstall sub-flow — a single yes/no question when the recorded
and latest versions coincide, otherwise a recorded/latest/no choice (the
recorded choice re-fetches that specific release); `--yes` proceeds with
the latest.  No backup is offered for a missing file. -/
def missingFlow (fs0 : FS) (reg0 saved0 : Registry) (name : String)
    (exec : Executable) (yes : Bool) (env : Env) : Out :=
  let base : Out :=
    { updated := false, result := Except.ok (), fs := fs0,
      mem := reg0, saved := saved0, committed := none, prompts := [] }
  match env.parsed with
  | none => { base with result := Except.error "malformed source" }
  | some _ =>
    match env.latestRelease with
    | none => { base with result := Except.error "failed to fetch release" }
    | some latest =>
      if yes then
        installPhase fs0 reg0 saved0 name exec latest latest.tagName
          exec.path false false yes env []
      else
        if exec.version == latest.tagName then
          let prompts := ["Reinstall? [y/N]: "]
          if respIsYes env.missingResponse then
            installPhase fs0 reg0 saved0 name exec latest latest.tagName
              exec.path false false yes env prompts
          else
            { base with prompts := prompts }
        else
          let prompts := ["Install? [r]ecorded / [l]atest / [N]o: "]
          let s := lowerStr (trimStr env.missingResponse)
          if s == "r" || s == "recorded" then
            match env.recordedRelease with
            | none =>
              { base with
                result := Except.error "failed to fetch recorded version",
                prompts := prompts }
            | some recorded =>
              installPhase fs0 reg0 saved0 name exec recorded exec.version
                exec.path false false yes env prompts
          else if s == "l" || s == "latest" then
            installPhase fs0 reg0 saved0 name exec latest latest.tagName
              exec.path false false yes env prompts
          else
            { base with prompts := prompts }

/-- `updateOne`: look the name up, run the existence check and (when the
file exists) symlink inspection — erroring in non-interactive mode on a
symlink, prompting otherwise — then the missing or present flow. -/
def updateOne (fs0 : FS) (reg0 saved0 : Registry) (name : String)
    (yes : Bool) (env : Env) : Out :=
  let base : Out :=
    { updated := false, result := Except.ok (), fs := fs0,
      mem := reg0, saved := saved0, committed := none, prompts := [] }
  match regGet reg0 name with
  | none =>
    { base with result := Except.error ("executable " ++ name ++ " is not managed by execman") }
  | some exec =>
    if !(fs0.statExists exec.path) then
      missingFlow fs0 reg0 saved0 name exec yes env
    else
      let info := check fs0 exec.path
      if info.isSymlink then
        if yes then
          { base with result := Except.error (errorNonInteractiveMsg info.path info.target) }
        else
          let prompts := ["Choice [1/2/3]: "]
          let action := promptAction env.symlinkResponse
          if action == SymlinkAction.actionCancel then
            { base with prompts := prompts }
          else
            presentFlow fs0 reg0 saved0 name exec (resolveTarget info action)
              (action == SymlinkAction.actionReplaceSymlink) yes env prompts
      else
        presentFlow fs0 reg0 saved0 name exec exec.path false yes env []

/-- Outcome of `updateAll`: the tally that is printed, the final state,
the overall returned error, and the order in which names were processed. -/
structure BatchOut where
  updatedCount : Nat
  upToDateCount : Nat
  failCount : Nat
  fs : FS
  mem : Registry
  saved : Registry
  result : Except String Unit
  processed : List String

/-- The loop body of `updateAll`: one full `updateOne` per name, threading
the filesystem and both registries, counting failures, updates and
up-to-date entries; a failure never aborts the remaining names. -/
def updateAllGo (yes : Bool) (envOf : String → Env) :
    List String → FS → Registry → Registry → Nat → Nat → Nat → List String → BatchOut
  | [], fs, mem, saved, u, d, f, acc =>
    { updatedCount := u, upToDateCount := d, failCount := f,
      fs := fs, mem := mem, saved := saved, result := Except.ok (), processed := acc }
  | n :: rest, fs, mem, saved, u, d, f, acc =>
    let o := updateOne fs mem saved n yes (envOf n)
    match o.result with
    | Except.error _ =>
      updateAllGo yes envOf rest o.fs o.mem o.saved u d (f + 1) (acc ++ [n])
    | Except.ok _ =>
      if o.updated then
        updateAllGo yes envOf rest o.fs o.mem o.saved (u + 1) d f (acc ++ [n])
      else
        updateAllGo yes envOf rest o.fs o.mem o.saved u (d + 1) f (acc ++ [n])

/-- `updateAll`: iterate `reg.List()` (stored order, no sort applied),
then print the tally and return `nil`. -/
def updateAll (fs0 : FS) (reg0 saved0 : Registry) (yes : Bool)
    (envOf : String → Env) : BatchOut :=
  updateAllGo yes envOf (regList reg0) fs0 reg0 saved0 0 0 0 []

end Update

/-! ## The remove command (`pkg/remove`, `Remove`) -/

namespace Remove

/-- Oracle inputs for one `Remove` run. -/
structure Env where
  symlinkResponse : String
  confirmResponse : String
  saveOk : Bool

/-- Outcome of one `Remove` run. -/
structure Out where
  result : Except String Unit
  fs : FS
  mem : Registry
  saved : Registry
  prompts : List String

/-- The tail of `Remove` after symlink handling: the interactive
confirmation, file removal (tolerating a missing file with a warning),
removal of the symlink as well when the target was removed, then the
registry removal and save. -/
def removeTail (fs0 : FS) (reg0 saved0 : Registry) (name : String)
    (_exec : Executable) (effectivePath : String) (alsoRemoveLinkAt : Option String)
    (yes : Bool) (env : Env) (prompts0 : List String) : Out :=
  let base : Out :=
    { result := Except.ok (), fs := fs0, mem := reg0, saved := saved0, prompts := prompts0 }
  let prompts1 :=
    prompts0 ++ (if !yes then ["This will delete the executable file and remove it from management. Continue? [y/N]: "] else [])
  if !yes && !(respIsYes env.confirmResponse) then
    { base with prompts := prompts1 }
  else
    let fs1 := fs0.removePath effectivePath
    let fs2 :=
      match alsoRemoveLinkAt with
      | some linkPath => fs1.removePath linkPath
      | none => fs1
    let mem := regRemove reg0 name
    if env.saveOk then
      { base with fs := fs2, mem := mem, saved := mem, prompts := prompts1 }
    else
      { base with
        result := Except.error "failed to update registry",
        fs := fs2, mem := mem, prompts := prompts1 }

set_option linter.dupNamespace false

/-- `remove.Remove`: look the name up, inspect for a symlink — erroring in
non-interactive mode, prompting otherwise — then confirm and remove the
file and the registry entry. -/
def Remove (fs0 : FS) (reg0 saved0 : Registry) (name : String)
    (yes : Bool) (env : Env) : Out :=
  let base : Out :=
    { result := Except.ok (), fs := fs0, mem := reg0, saved := saved0, prompts := [] }
  match regGet reg0 name with
  | none =>
    { base with result := Except.error ("executable " ++ name ++ " is not managed by execman") }
  | some exec =>
    let info := check fs0 exec.path
    if info.isSymlink then
      if yes then
        { base with result := Except.error (errorNonInteractiveMsg info.path info.target) }
      else
        let prompts := ["Choice [1/2/3]: "]
        let action := promptAction env.symlinkResponse
        if action == SymlinkAction.actionCancel then
          { base with prompts := prompts }
        else
          let eff := resolveTarget info action
          let alsoLink :=
            if action == SymlinkAction.actionReplaceTarget then some info.path else none
          removeTail fs0 reg0 saved0 name exec eff alsoLink yes env prompts
    else
      removeTail fs0 reg0 saved0 name exec exec.path none yes env []

end Remove

/-! ## Concrete fixtures

Small concrete worlds used to witness the theorems and to exhibit
counterexamples. -/

/-- A concrete content hash for witnesses: a run of `x` characters whose
length is the sum of the bytes (injective enough for the fixtures and
kernel-computable). -/
def exHash (c : Content) : String :=
  ⟨List.replicate (c.foldl (· + ·) 0) 'x'⟩

/-- A release with one platform asset and a checksum manifest asset. -/
def exRelease : Release :=
  { tagName := "v2",
    assets := [{ name := "app_v2_linux_amd64.tar.gz" }, { name := "checksums.txt" }] }

/-- A fully successful non-interactive install environment: the manifest
digest matches the downloaded archive. -/
def exInstallEnv : Install.Env :=
  { loadOk := true, configOk := true, defaultInstallDir := "/usr/local/bin",
    parsed := some ("o", "app", ""), fetchedRelease := some exRelease,
    findAsset := fun l => l.head?, tempDirOk := true,
    downloadAsset := some [7, 7], downloadChecksums := some [1],
    manifestDigest := some (exHash [7, 7]), archiveChecksumOk := true, mkdirOk := true,
    extract := fun _ => some [9, 9, 9], installedChecksumOk := true, saveOk := true,
    hash := exHash, reinstallResponse := "y\n", proceedResponse := "\n",
    now := 5, goos := "linux", goarch := "amd64" }

/-- The same environment with a wrong manifest digest (checksum
mismatch). -/
def exInstallEnvMismatch : Install.Env :=
  { exInstallEnv with manifestDigest := some "999" }

/-- The same environment where computing the checksum of the installed
binary fails (an I/O failure after the binary has been placed). -/
def exInstallEnvLateFail : Install.Env :=
  { exInstallEnv with installedChecksumOk := false }

/-- A filesystem holding a prior installation at the install target. -/
def exFsPrior : FS :=
  { files := [("/usr/local/bin/app", [1, 2, 3])], links := [] }

/-- A registry with a prior entry for `app`. -/
def exRegPrior : Registry :=
  [("app", { source := "https://github.com/o/app", version := "v1", installedAt := 1,
             path := "/usr/local/bin/app", platform := "linux/amd64", checksum := exHash [1, 2, 3] })]

/-- A registry record used by the update fixtures. -/
def exRecA : Executable :=
  { source := "https://github.com/o/a", version := "v1", installedAt := 1,
    path := "/bin/a", platform := "linux/amd64", checksum := exHash [1] }

/-- A successful non-interactive update environment. -/
def exUpdateEnv : Update.Env :=
  { parsed := some ("o", "a"), latestRelease := some exRelease,
    recordedRelease := none, findAsset := fun l => l.head?, tempDirOk := true,
    download := some [7, 7], extract := fun _ => some [9, 9, 9],
    checksumOk := true, mkdirOk := true, chmodOk := true, saveOk := true,
    hash := exHash, symlinkResponse := "1\n", updateResponse := "y\n",
    missingResponse := "y\n", backupResponse := "n\n", cleanupResponse := "\n",
    now := 9 }

/-- The same update environment with the download failing. -/
def exUpdateEnvFail : Update.Env :=
  { exUpdateEnv with download := none }

/-- A three-entry registry `{a, b, c}` for the batch-update fixtures. -/
def exRegABC : Registry :=
  [("a", { exRecA with path := "/bin/a" }),
   ("b", { exRecA with source := "https://github.com/o/b", path := "/bin/b" }),
   ("c", { exRecA with source := "https://github.com/o/c", path := "/bin/c" })]

/-- The filesystem holding the three installed binaries. -/
def exFsABC : FS :=
  { files := [("/bin/a", [1]), ("/bin/b", [1]), ("/bin/c", [1])], links := [] }

/-- Batch environment map where only `b`'s download fails. -/
def exEnvOfBFails (n : String) : Update.Env :=
  if n == "b" then exUpdateEnvFail else exUpdateEnv

/-- Batch environment map where every download fails. -/
def exEnvOfAllFail (_n : String) : Update.Env :=
  exUpdateEnvFail

/-- A two-entry registry stored in non-alphabetical order. -/
def exRegBA : Registry :=
  [("b", { exRecA with source := "https://github.com/o/b", path := "/bin/b" }),
   ("a", { exRecA with path := "/bin/a" })]

/-- A filesystem where the recorded path `/bin/lnk` is a dangling symlink:
the link exists but its target does not. -/
def exFsDangling : FS :=
  { files := [], links := [("/bin/lnk", "/opt/gone")] }

/-- A registry entry whose recorded path is the dangling symlink. -/
def exRegDangling : Registry :=
  [("a", { exRecA with path := "/bin/lnk" })]

/-- A filesystem where the recorded path is a symlink to an existing
target. -/
def exFsLinked : FS :=
  { files := [("/opt/real", [1])], links := [("/bin/a", "/opt/real")] }

/-- A remove environment. -/
def exRemoveEnv : Remove.Env :=
  { symlinkResponse := "1\n", confirmResponse := "y\n", saveOk := true }

/-- The successful install environment, with the requested version pinned
to the recorded one (a duplicate install) and a negative answer to the
reinstall question. -/
def exInstallEnvDupNo : Install.Env :=
  { exInstallEnv with parsed := some ("o", "app", "v1"), reinstallResponse := "n\n" }

/-- An update environment whose asset selector returns a fixed asset
name, used where theorems quantify over every selected asset. -/
def exUpdateEnvConstAsset : Update.Env :=
  { exUpdateEnv with findAsset := fun _ => some { name := "app.tar.gz" } }


/-- The entry committed by the concrete install fixture. -/
def exInstallCommitted : Executable :=
  { source := "https://github.com/o/app", version := "v2", installedAt := 5,
    path := "/usr/local/bin/app", platform := "linux/amd64", checksum := exHash [9, 9, 9] }

/-- The entry committed by the concrete update fixture. -/
def exUpdateCommitted : Executable :=
  { source := "https://github.com/o/a", version := "v2", installedAt := 9,
    path := "/bin/a", platform := "linux/amd64", checksum := exHash [9, 9, 9] }

/-! ## Name ordering

A kernel-computable lexicographic order on names, used to state
sortedness of batch iteration. -/

/-- Lexicographic comparison of character lists. -/
def charsLe : List Char → List Char → Bool
  | [], _ => true
  | _ :: _, [] => false
  | a :: as, b :: bs => if a = b then charsLe as bs else decide (a.toNat < b.toNat)

/-- Lexicographic comparison of names. -/
def strLe (s t : String) : Bool :=
  charsLe s.data t.data

/-- The list of names is in (weakly) ascending lexicographic order. -/
def sortedNames : List String → Bool
  | [] => true
  | [_] => true
  | a :: b :: rest => strLe a b && sortedNames (b :: rest)

/-! ## Association-list and filesystem lemmas -/

theorem lookup_append {β : Type} (l₁ l₂ : List (String × β)) (k : String) :
    (l₁ ++ l₂).lookup k = ((l₁.lookup k).or (l₂.lookup k)) := by
  induction l₁ with
  | nil => simp
  | cons hd tl ih =>
    obtain ⟨a, b⟩ := hd
    by_cases h : k = a
    · subst h
      simp [List.lookup_cons]
    · have hb : (k == a) = false := by simp [h]
      simp [List.lookup_cons, hb, ih]

theorem lookup_map_replace {β : Type} (l : List (String × β)) (k : String) (v : β) :
    (l.map (fun p => if p.1 == k then (k, v) else p)).lookup k =
      if (l.lookup k).isSome then some v else none := by
  induction l with
  | nil => simp
  | cons hd tl ih =>
    obtain ⟨a, b⟩ := hd
    by_cases h : a = k
    · subst h
      simp [List.lookup_cons]
    · have hb' : (k == a) = false := by simp [Ne.symm h]
      simp only [List.map_cons, List.lookup_cons, hb', beq_iff_eq, if_neg h] at ih ⊢
      exact ih

theorem lookup_map_replace_ne {β : Type} (l : List (String × β)) (k k' : String) (v : β)
    (h : k' ≠ k) :
    (l.map (fun p => if p.1 == k then (k, v) else p)).lookup k' = l.lookup k' := by
  induction l with
  | nil => simp
  | cons hd tl ih =>
    obtain ⟨a, b⟩ := hd
    by_cases ha : a = k
    · subst ha
      have hb : (k' == a) = false := by simp [h]
      simpa [List.lookup_cons, hb] using ih
    · by_cases hk : k' = a
      · subst hk
        simp [List.lookup_cons, ha]
      · have hb2 : (k' == a) = false := by simp [hk]
        simpa [List.lookup_cons, ha, hb2] using ih

theorem lookup_upsertAL_self {β : Type} (l : List (String × β)) (k : String) (v : β) :
    (upsertAL l k v).lookup k = some v := by
  unfold upsertAL
  split
  · rename_i h
    rw [lookup_map_replace, if_pos h]
  · rename_i h
    rw [lookup_append]
    have hn : l.lookup k = none := by
      cases he : l.lookup k with
      | none => rfl
      | some w => rw [he] at h; simp at h
    simp [hn, List.lookup_cons]

theorem lookup_upsertAL_ne {β : Type} (l : List (String × β)) (k k' : String) (v : β)
    (h : k' ≠ k) :
    (upsertAL l k v).lookup k' = l.lookup k' := by
  unfold upsertAL
  split
  · exact lookup_map_replace_ne l k k' v h
  · rw [lookup_append]
    have hb : (k' == k) = false := by simp [h]
    cases he : l.lookup k' with
    | none => simp [List.lookup_cons, hb]
    | some w => simp

theorem lookup_eraseAL_self {β : Type} (l : List (String × β)) (k : String) :
    (l.filter (fun kv => kv.1 != k)).lookup k = none := by
  induction l with
  | nil => simp
  | cons hd tl ih =>
    obtain ⟨a, b⟩ := hd
    by_cases h : a = k
    · subst h
      simp [List.filter, ih]
    · have hb : (a != k) = true := by simp [h]
      have hb2 : (k == a) = false := by simp [Ne.symm h]
      simp [List.filter, hb, List.lookup_cons, hb2, ih]

theorem lookup_eraseAL_ne {β : Type} (l : List (String × β)) (k k' : String)
    (h : k' ≠ k) :
    (l.filter (fun kv => kv.1 != k)).lookup k' = l.lookup k' := by
  induction l with
  | nil => simp
  | cons hd tl ih =>
    obtain ⟨a, b⟩ := hd
    by_cases ha : a = k
    · subst ha
      have hb : (k' == a) = false := by simp [h]
      simp [List.filter, List.lookup_cons, hb, ih]
    · have hb : (a != k) = true := by simp [ha]
      by_cases hk : k' = a
      · subst hk
        simp [List.filter, hb, List.lookup_cons]
      · have hb2 : (k' == a) = false := by simp [hk]
        simp [List.filter, hb, List.lookup_cons, hb2, ih]

namespace FS

@[simp] theorem links_upsertFile (fs : FS) (q : String) (c : Content) :
    (fs.upsertFile q c).links = fs.links := rfl

@[simp] theorem links_writeFile (fs : FS) (p : String) (c : Content) :
    (fs.writeFile p c).links = fs.links := rfl

@[simp] theorem readLink_writeFile (fs : FS) (p q : String) (c : Content) :
    (fs.writeFile p c).readLink q = fs.readLink q := rfl

@[simp] theorem resolve_writeFile (fs : FS) (p q : String) (c : Content) :
    (fs.writeFile p c).resolve q = fs.resolve q := rfl

@[simp] theorem isLink_writeFile (fs : FS) (p q : String) (c : Content) :
    (fs.writeFile p c).isLink q = fs.isLink q := rfl

theorem readLink_none_of_not_isLink (fs : FS) (p : String)
    (h : fs.isLink p = false) : fs.readLink p = none := by
  unfold isLink at h
  cases he : fs.readLink p with
  | none => rfl
  | some t => rw [he] at h; simp at h

theorem resolve_of_not_isLink (fs : FS) (p : String)
    (h : fs.isLink p = false) : fs.resolve p = p := by
  unfold resolve
  rw [readLink_none_of_not_isLink fs p h]

theorem resolve_of_readLink (fs : FS) (p t : String)
    (h : fs.readLink p = some t) : fs.resolve p = t := by
  unfold resolve
  rw [h]

theorem fileAt_writeFile_resolved (fs : FS) (p : String) (c : Content) :
    (fs.writeFile p c).fileAt (fs.resolve p) = some c := by
  unfold writeFile upsertFile fileAt
  exact lookup_upsertAL_self _ _ _

theorem fileAt_writeFile_ne (fs : FS) (p q : String) (c : Content)
    (h : q ≠ fs.resolve p) :
    (fs.writeFile p c).fileAt q = fs.fileAt q := by
  unfold writeFile upsertFile fileAt
  exact lookup_upsertAL_ne _ _ _ _ h

theorem readBytes_writeFile_self (fs : FS) (p : String) (c : Content) :
    (fs.writeFile p c).readBytes p = some c := by
  unfold readBytes
  rw [resolve_writeFile]
  exact fileAt_writeFile_resolved fs p c

theorem readBytes_writeFile_ne (fs : FS) (p q : String) (c : Content)
    (h : fs.resolve q ≠ fs.resolve p) :
    (fs.writeFile p c).readBytes q = fs.readBytes q := by
  unfold readBytes
  rw [resolve_writeFile]
  exact fileAt_writeFile_ne fs p (fs.resolve q) c h

theorem links_removePath_of_not_isLink (fs : FS) (p : String)
    (h : fs.isLink p = false) : (fs.removePath p).links = fs.links := by
  unfold removePath
  simp [h]

theorem files_removePath_of_isLink (fs : FS) (p : String)
    (h : fs.isLink p = true) : (fs.removePath p).files = fs.files := by
  unfold removePath
  simp [h]

theorem readLink_removePath_self (fs : FS) (p : String) :
    (fs.removePath p).readLink p = none := by
  unfold removePath
  by_cases h : fs.isLink p
  · rw [if_pos h]
    exact lookup_eraseAL_self _ _
  · rw [if_neg h]
    exact readLink_none_of_not_isLink fs p (by simpa using h)

theorem readLink_removePath_ne (fs : FS) (p q : String) (h : q ≠ p) :
    (fs.removePath p).readLink q = fs.readLink q := by
  unfold removePath
  by_cases hl : fs.isLink p
  · rw [if_pos hl]
    exact lookup_eraseAL_ne _ _ _ h
  · rw [if_neg hl]
    rfl

theorem fileAt_removePath_of_isLink (fs : FS) (p q : String)
    (h : fs.isLink p = true) : (fs.removePath p).fileAt q = fs.fileAt q := by
  unfold fileAt
  rw [files_removePath_of_isLink fs p h]

theorem fileAt_removePath_ne (fs : FS) (p q : String) (h : q ≠ p) :
    (fs.removePath p).fileAt q = fs.fileAt q := by
  unfold removePath
  by_cases hl : fs.isLink p
  · rw [if_pos hl]
    rfl
  · rw [if_neg hl]
    exact lookup_eraseAL_ne _ _ _ h

/-- Removing whatever is at `p` and writing fresh content at `p` makes a
read of `p` yield exactly that content. -/
theorem readBytes_replace_self (fs : FS) (p : String) (c : Content) :
    ((fs.removePath p).writeFile p c).readBytes p = some c :=
  readBytes_writeFile_self _ p c

/-- When `p` is a symlink to `t` and `t` is not itself a symlink,
removing the file at `t` and writing fresh content at `t` makes a read of
`p` (through the link, which is untouched) yield that content. -/
theorem readBytes_replace_via_link (fs : FS) (p t : String) (c : Content)
    (hp : fs.readLink p = some t) (ht : fs.isLink t = false) :
    ((fs.removePath t).writeFile t c).readBytes p = some c := by
  have hlinks : (fs.removePath t).links = fs.links :=
    links_removePath_of_not_isLink fs t ht
  have hrl : ((fs.removePath t).writeFile t c).readLink p = some t := by
    rw [readLink_writeFile]
    unfold readLink
    rw [hlinks]
    exact hp
  unfold readBytes
  rw [resolve_of_readLink _ p t hrl]
  have hres : (fs.removePath t).resolve t = t := by
    apply resolve_of_not_isLink
    unfold isLink readLink
    rw [hlinks]
    simpa [FS.isLink, FS.readLink] using ht
  have hfa := fileAt_writeFile_resolved (fs.removePath t) t c
  rw [hres] at hfa
  exact hfa

end FS

/-! ## Batch-update loop lemmas -/

/-- The batch loop returns `nil` whatever happens to the individual
entries. -/
theorem updateAllGo_result (yes : Bool) (envOf : String → Update.Env) :
    ∀ (ns : List String) (fs : FS) (mem saved : Registry) (u d f : Nat) (acc : List String),
      (Update.updateAllGo yes envOf ns fs mem saved u d f acc).result = Except.ok () := by
  intro ns
  induction ns with
  | nil => intro fs mem saved u d f acc; rfl
  | cons n rest ih =>
    intro fs mem saved u d f acc
    simp only [Update.updateAllGo]
    split
    · exact ih _ _ _ _ _ _ _
    · split
      · exact ih _ _ _ _ _ _ _
      · exact ih _ _ _ _ _ _ _

/-- The batch loop processes every name handed to it, in order, no matter
which entries fail. -/
theorem updateAllGo_processed (yes : Bool) (envOf : String → Update.Env) :
    ∀ (ns : List String) (fs : FS) (mem saved : Registry) (u d f : Nat) (acc : List String),
      (Update.updateAllGo yes envOf ns fs mem saved u d f acc).processed = acc ++ ns := by
  intro ns
  induction ns with
  | nil => intro fs mem saved u d f acc; simp [Update.updateAllGo]
  | cons n rest ih =>
    intro fs mem saved u d f acc
    simp only [Update.updateAllGo]
    split
    · rw [ih]; simp
    · split
      · rw [ih]; simp
      · rw [ih]; simp

/-- The three counters in the final tally account for every processed
name. -/
theorem updateAllGo_counts (yes : Bool) (envOf : String → Update.Env) :
    ∀ (ns : List String) (fs : FS) (mem saved : Registry) (u d f : Nat) (acc : List String),
      (Update.updateAllGo yes envOf ns fs mem saved u d f acc).updatedCount +
        (Update.updateAllGo yes envOf ns fs mem saved u d f acc).upToDateCount +
        (Update.updateAllGo yes envOf ns fs mem saved u d f acc).failCount =
      u + d + f + ns.length := by
  intro ns
  induction ns with
  | nil => intro fs mem saved u d f acc; simp [Update.updateAllGo]
  | cons n rest ih =>
    intro fs mem saved u d f acc
    simp only [Update.updateAllGo]
    split
    · rw [ih]; simp only [List.length_cons]; omega
    · split
      · rw [ih]; simp only [List.length_cons]; omega
      · rw [ih]; simp only [List.length_cons]; omega

/-! ## Claim theorems -/

/-- C10: every batch update (`--all`) returns success (`nil`) to its
caller regardless of how many individual entries fail — even when every
entry fails (shown on a concrete batch where all three downloads fail);
failures are reflected only in the printed tally. -/
theorem C10_updateAll_always_returns_nil :
    (∀ (fs0 : FS) (reg0 saved0 : Registry) (yes : Bool) (envOf : String → Update.Env),
      (Update.updateAll fs0 reg0 saved0 yes envOf).result = Except.ok ()) ∧
    (Update.updateAll exFsABC exRegABC exRegABC true exEnvOfAllFail).failCount = 3 ∧
    (Update.updateAll exFsABC exRegABC exRegABC true exEnvOfAllFail).result = Except.ok () := by
  refine ⟨?_, by decide, by decide⟩
  intro fs0 reg0 saved0 yes envOf
  exact updateAllGo_result yes envOf (regList reg0) fs0 reg0 saved0 0 0 0 []

/-- C5: the failure of a single entry does not abort a batch update:
every name handed to the loop is processed (in order), the three counters
in the final report account for every entry, and on the concrete batch
`{a, b, c}` where only `b`'s download fails, `a` and `c` are updated and
the report shows 2 updated, 0 already up to date, 1 failed. -/
theorem C5_batch_isolates_failures :
    (∀ (fs0 : FS) (reg0 saved0 : Registry) (yes : Bool) (envOf : String → Update.Env),
      (Update.updateAll fs0 reg0 saved0 yes envOf).processed = regList reg0 ∧
      (Update.updateAll fs0 reg0 saved0 yes envOf).updatedCount +
        (Update.updateAll fs0 reg0 saved0 yes envOf).upToDateCount +
        (Update.updateAll fs0 reg0 saved0 yes envOf).failCount = (regList reg0).length) ∧
    ((Update.updateAll exFsABC exRegABC exRegABC true exEnvOfBFails).updatedCount = 2 ∧
     (Update.updateAll exFsABC exRegABC exRegABC true exEnvOfBFails).upToDateCount = 0 ∧
     (Update.updateAll exFsABC exRegABC exRegABC true exEnvOfBFails).failCount = 1 ∧
     (regGet (Update.updateAll exFsABC exRegABC exRegABC true exEnvOfBFails).saved "a").map
        (fun e => e.version) = some "v2" ∧
     (regGet (Update.updateAll exFsABC exRegABC exRegABC true exEnvOfBFails).saved "c").map
        (fun e => e.version) = some "v2" ∧
     (regGet (Update.updateAll exFsABC exRegABC exRegABC true exEnvOfBFails).saved "b").map
        (fun e => e.version) = some "v1") := by
  constructor
  · intro fs0 reg0 saved0 yes envOf
    constructor
    · have h := updateAllGo_processed yes envOf (regList reg0) fs0 reg0 saved0 0 0 0 []
      simpa [Update.updateAll] using h
    · have h := updateAllGo_counts yes envOf (regList reg0) fs0 reg0 saved0 0 0 0 []
      simpa [Update.updateAll] using h
  · refine ⟨by decide, by decide, by decide, by decide, by decide, by decide⟩

/-- C9 counterexample: batch update does not sort — over a registry whose
stored order is `[b, a]` the loop processes `b` before `a`, which is not
the sorted (registry-name sort) order. -/
theorem C9_counterexample_not_sorted :
    (Update.updateAll exFsABC exRegBA exRegBA true exEnvOfBFails).processed = ["b", "a"] ∧
    sortedNames (Update.updateAll exFsABC exRegBA exRegBA true exEnvOfBFails).processed
      = false ∧
    sortedNames ["a", "b"] = true := by
  refine ⟨by decide, by decide, by decide⟩

/-- C9 amended: batch update (`--all`) iterates the managed names in the
order returned by the registry's `List` (its stored order); `updateAll`
itself applies no sort — only the `list` command sorts names. -/
theorem C9_amended_iteration_in_registry_order :
    ∀ (fs0 : FS) (reg0 saved0 : Registry) (yes : Bool) (envOf : String → Update.Env),
      (Update.updateAll fs0 reg0 saved0 yes envOf).processed = regList reg0 := by
  intro fs0 reg0 saved0 yes envOf
  have h := updateAllGo_processed yes envOf (regList reg0) fs0 reg0 saved0 0 0 0 []
  simpa [Update.updateAll] using h

/-- C8: in the interactive symlink decision, input `1` (after the
whitespace trimming the reader applies) yields ReplaceTarget, `2` yields
ReplaceSymlink, and any other input — including `3` and unrecognized
text — yields Cancel; and for every `SymlinkInfo` the effective path
resolves to the target under ReplaceTarget and to the symlink path
otherwise. -/
theorem C8_prompt_decision_and_effective_path :
    promptAction "1" = SymlinkAction.actionReplaceTarget ∧
    promptAction "2" = SymlinkAction.actionReplaceSymlink ∧
    (∀ r : String, trimStr r ≠ "1" → trimStr r ≠ "2" →
      promptAction r = SymlinkAction.actionCancel) ∧
    (∀ info : Info, resolveTarget info SymlinkAction.actionReplaceTarget = info.target) ∧
    (∀ (info : Info) (a : SymlinkAction), a ≠ SymlinkAction.actionReplaceTarget →
      resolveTarget info a = info.path) := by
  refine ⟨by decide, by decide, ?_, ?_, ?_⟩
  · intro r h1 h2
    have b1 : (trimStr r == "1") = false := by simp [h1]
    have b2 : (trimStr r == "2") = false := by simp [h2]
    simp [promptAction, b1, b2]
  · intro info
    simp [resolveTarget]
  · intro info a h
    cases a with
    | actionCancel => simp [resolveTarget]
    | actionReplaceTarget => exact absurd rfl h
    | actionReplaceSymlink => simp [resolveTarget]

/-- C8 witness: the theorem applied at input `3` and at a concrete
symlink description. -/
theorem C8_prompt_decision_witness :
    promptAction "3" = SymlinkAction.actionCancel ∧
    resolveTarget { isSymlink := true, path := "/usr/local/bin/app", target := "/opt/app" }
      SymlinkAction.actionReplaceSymlink = "/usr/local/bin/app" :=
  ⟨C8_prompt_decision_and_effective_path.2.2.1 "3" (by decide) (by decide),
   C8_prompt_decision_and_effective_path.2.2.2.2 _ _ (by decide)⟩

/-! ### Install pipeline facts -/

/-- The temporary download scope is removed (`defer os.RemoveAll`) on
every exit of the pipeline. -/
theorem Install.pipeline_tempAtExit (fs0 : FS) (saved0 : Registry) (env : Install.Env)
    (release : Release) (owner repo version execName targetPath : String)
    (prompts : List String) :
    (Install.pipeline fs0 saved0 env release owner repo version execName targetPath
      prompts).tempAtExit = none := by
  unfold Install.pipeline
  dsimp only
  repeat' split
  all_goals rfl

/-- The pipeline issues no prompts of its own. -/
theorem Install.pipeline_prompts (fs0 : FS) (saved0 : Registry) (env : Install.Env)
    (release : Release) (owner repo version execName targetPath : String)
    (prompts : List String) :
    (Install.pipeline fs0 saved0 env release owner repo version execName targetPath
      prompts).prompts = prompts := by
  unfold Install.pipeline
  dsimp only
  repeat' split
  all_goals rfl

/-- Entering the pipeline marks the run as having executed the pipeline. -/
theorem Install.pipeline_pipelineRan (fs0 : FS) (saved0 : Registry) (env : Install.Env)
    (release : Release) (owner repo version execName targetPath : String)
    (prompts : List String) :
    (Install.pipeline fs0 saved0 env release owner repo version execName targetPath
      prompts).pipelineRan = true := by
  unfold Install.pipeline
  dsimp only
  repeat' split
  all_goals rfl

/-- Frame facts for the pipeline: on any failure the persisted registry is
unchanged and nothing is committed; on any failure before placement the
filesystem is unchanged; on the checksum-mismatch failure in particular
the filesystem and the in-memory registry are unchanged. -/
theorem Install.pipeline_frame (fs0 : FS) (saved0 : Registry) (env : Install.Env)
    (release : Release) (owner repo version execName targetPath : String)
    (prompts : List String) (msg : String) :
    ((Install.pipeline fs0 saved0 env release owner repo version execName targetPath
        prompts).result = Except.error msg →
      (Install.pipeline fs0 saved0 env release owner repo version execName targetPath
        prompts).saved = saved0 ∧
      (Install.pipeline fs0 saved0 env release owner repo version execName targetPath
        prompts).committed = none) ∧
    ((Install.pipeline fs0 saved0 env release owner repo version execName targetPath
        prompts).result = Except.error msg →
      (Install.pipeline fs0 saved0 env release owner repo version execName targetPath
        prompts).placed = false →
      (Install.pipeline fs0 saved0 env release owner repo version execName targetPath
        prompts).fs = fs0) ∧
    ((Install.pipeline fs0 saved0 env release owner repo version execName targetPath
        prompts).result = Except.error "checksum verification failed" →
      (Install.pipeline fs0 saved0 env release owner repo version execName targetPath
        prompts).fs = fs0 ∧
      (Install.pipeline fs0 saved0 env release owner repo version execName targetPath
        prompts).mem = saved0) := by
  unfold Install.pipeline
  dsimp only
  repeat' split
  all_goals exact ⟨fun h => by simp_all, fun h hp => by simp_all, fun h => by simp_all⟩

/-- When verification runs against a digest that differs from the
computed checksum of the download, the pipeline ends in exactly the
checksum-mismatch error. -/
theorem Install.pipeline_mismatch_result (fs0 : FS) (saved0 : Registry) (env : Install.Env)
    (release : Release) (owner repo version execName targetPath : String)
    (prompts : List String) (bytes : Content) (d : String)
    (hfa : (env.findAsset release.assets).isSome = true)
    (htmp : env.tempDirOk = true)
    (hdl : env.downloadAsset = some bytes)
    (hfind : (release.assets.find? isChecksumAsset).isSome = true)
    (hdlc : env.downloadChecksums.isSome = true)
    (hman : env.manifestDigest = some d)
    (harch : env.archiveChecksumOk = true)
    (hne : env.hash bytes ≠ d) :
    (Install.pipeline fs0 saved0 env release owner repo version execName targetPath
      prompts).result = Except.error "checksum verification failed" := by
  rcases Option.isSome_iff_exists.mp hfa with ⟨a, ha⟩
  rcases Option.isSome_iff_exists.mp hfind with ⟨ca, hca⟩
  rcases Option.isSome_iff_exists.mp hdlc with ⟨cb, hcb⟩
  have hbne : (env.hash bytes != d) = true := by simp [bne_iff_ne, hne]
  unfold Install.pipeline
  dsimp only
  simp only [ha, htmp, hdl, hca, hcb, hman, harch, hbne]
  rfl

/-! ### Install run facts -/

/-- The temporary download scope is removed on every exit of
`install.Run`. -/
theorem Install.Run_tempAtExit (fs0 : FS) (saved0 : Registry) (env : Install.Env)
    (opts : Install.Options) :
    (Install.Run fs0 saved0 env opts).tempAtExit = none := by
  unfold Install.Run
  dsimp only
  repeat' split
  all_goals first
    | rfl
    | apply Install.pipeline_tempAtExit

/-- Frame facts for `install.Run`, lifted from the pipeline. -/
theorem Install.Run_frame (fs0 : FS) (saved0 : Registry) (env : Install.Env)
    (opts : Install.Options) (msg : String) :
    ((Install.Run fs0 saved0 env opts).result = Except.error msg →
      (Install.Run fs0 saved0 env opts).saved = saved0 ∧
      (Install.Run fs0 saved0 env opts).committed = none) ∧
    ((Install.Run fs0 saved0 env opts).result = Except.error msg →
      (Install.Run fs0 saved0 env opts).placed = false →
      (Install.Run fs0 saved0 env opts).fs = fs0) ∧
    ((Install.Run fs0 saved0 env opts).result = Except.error "checksum verification failed" →
      (Install.Run fs0 saved0 env opts).fs = fs0 ∧
      (Install.Run fs0 saved0 env opts).mem = saved0) := by
  unfold Install.Run
  dsimp only
  repeat' split
  all_goals first
    | exact Install.pipeline_frame _ _ _ _ _ _ _ _ _ _ _
    | exact ⟨fun h => by simp_all, fun h hp => by simp_all, fun h => by simp_all⟩

/-- C6 (documents a code bug): `install.Run` registers
`defer os.RemoveAll(tempDir)` immediately after creating the download
scope, so the temporary scope is removed on *every* exit — on a
checksum-mismatch failure after a successful download the artifact is
gone, not preserved for inspection, contradicting the repository's own
specification ("Checksum mismatch: Abort installation, preserve download
for debugging").  Shown concretely on a mismatch run, and in general:
the temp scope is empty at exit of every run. -/
theorem C6_artifact_removed_even_on_failure :
    (Install.Run exFsPrior exRegPrior exInstallEnvMismatch
        { source := "s", into := "", yes := true }).result =
      Except.error "checksum verification failed" ∧
    (Install.Run exFsPrior exRegPrior exInstallEnvMismatch
        { source := "s", into := "", yes := true }).tempAtExit = none ∧
    (∀ (fs0 : FS) (saved0 : Registry) (env : Install.Env) (opts : Install.Options),
      (Install.Run fs0 saved0 env opts).tempAtExit = none) := by
  exact ⟨by decide, by decide, Install.Run_tempAtExit⟩

/-- C3 counterexample: a run of the install pipeline that fails *after*
extraction — here the checksum computation of the installed binary
fails — leaves the prior installation at the target path overwritten by
the newly extracted binary, so "any failure leaves any prior installation
untouched" is false as stated (the persisted registry is still
untouched). -/
theorem C3_counterexample_late_failure_overwrites_target :
    (Install.Run exFsPrior exRegPrior exInstallEnvLateFail
        { source := "s", into := "", yes := true }).result =
      Except.error "failed to calculate checksum" ∧
    exFsPrior.readBytes "/usr/local/bin/app" = some [1, 2, 3] ∧
    (Install.Run exFsPrior exRegPrior exInstallEnvLateFail
        { source := "s", into := "", yes := true }).fs.readBytes "/usr/local/bin/app" =
      some [9, 9, 9] ∧
    (Install.Run exFsPrior exRegPrior exInstallEnvLateFail
        { source := "s", into := "", yes := true }).saved = exRegPrior := by
  refine ⟨by decide, by decide, by decide, by decide⟩

/-- C3 amended: every failing run of the install pipeline leaves the
persisted registry untouched and commits nothing; and every failing run
that has not yet placed the binary (placement = extraction, which writes
directly to the target path) also leaves the filesystem untouched.  A
failure at or after placement — extraction has already written the
target — can leave the newly extracted binary at the target path. -/
theorem C3_amended_failure_frame :
    ∀ (fs0 : FS) (saved0 : Registry) (env : Install.Env) (opts : Install.Options) (msg : String),
      ((Install.Run fs0 saved0 env opts).result = Except.error msg →
        (Install.Run fs0 saved0 env opts).saved = saved0 ∧
        (Install.Run fs0 saved0 env opts).committed = none) ∧
      ((Install.Run fs0 saved0 env opts).result = Except.error msg →
        (Install.Run fs0 saved0 env opts).placed = false →
        (Install.Run fs0 saved0 env opts).fs = fs0) := by
  intro fs0 saved0 env opts msg
  exact ⟨(Install.Run_frame fs0 saved0 env opts msg).1,
         (Install.Run_frame fs0 saved0 env opts msg).2.1⟩

/-- C3 witness: the amended frame applied to a concrete checksum-mismatch
failure. -/
theorem C3_amended_failure_frame_witness :
    (Install.Run exFsPrior exRegPrior exInstallEnvMismatch
        { source := "s", into := "", yes := true }).saved = exRegPrior ∧
    (Install.Run exFsPrior exRegPrior exInstallEnvMismatch
        { source := "s", into := "", yes := true }).committed = none ∧
    (Install.Run exFsPrior exRegPrior exInstallEnvMismatch
        { source := "s", into := "", yes := true }).fs = exFsPrior := by
  have h := C3_amended_failure_frame exFsPrior exRegPrior exInstallEnvMismatch
    { source := "s", into := "", yes := true } "checksum verification failed"
  exact ⟨(h.1 (by decide)).1, (h.1 (by decide)).2, h.2 (by decide) (by decide)⟩

/-- C2: a checksum mismatch aborts the install with the checksum error,
never mutates or saves the registry, and never writes the target path:
(a) any run that ends in the checksum-mismatch error has an unchanged
filesystem, unchanged in-memory and persisted registries and commits
nothing; (b) whenever the pipeline reaches verification with a manifest
digest that differs from the computed checksum of the downloaded archive
(in non-interactive mode, or interactively with the confirmations given),
the run ends in exactly that error. -/
theorem C2_checksum_mismatch_never_mutates :
    (∀ (fs0 : FS) (saved0 : Registry) (env : Install.Env) (opts : Install.Options),
      (Install.Run fs0 saved0 env opts).result = Except.error "checksum verification failed" →
        (Install.Run fs0 saved0 env opts).fs = fs0 ∧
        (Install.Run fs0 saved0 env opts).mem = saved0 ∧
        (Install.Run fs0 saved0 env opts).saved = saved0 ∧
        (Install.Run fs0 saved0 env opts).committed = none) ∧
    (∀ (fs0 : FS) (saved0 : Registry) (env : Install.Env) (opts : Install.Options)
        (owner repo v0 : String) (rel : Release) (bytes : Content) (d : String),
      env.loadOk = true → env.configOk = true →
      env.parsed = some (owner, repo, v0) →
      env.fetchedRelease = some rel →
      (env.findAsset rel.assets).isSome = true →
      env.tempDirOk = true →
      env.downloadAsset = some bytes →
      (rel.assets.find? isChecksumAsset).isSome = true →
      env.downloadChecksums.isSome = true →
      env.manifestDigest = some d →
      env.archiveChecksumOk = true →
      env.hash bytes ≠ d →
      (opts.yes = true ∨ (respIsYes env.reinstallResponse = true ∧
                          respIsNo env.proceedResponse = false)) →
      (Install.Run fs0 saved0 env opts).result =
        Except.error "checksum verification failed") := by
  constructor
  · intro fs0 saved0 env opts h
    have hf := (Install.Run_frame fs0 saved0 env opts "checksum verification failed").2.2 h
    have hs := (Install.Run_frame fs0 saved0 env opts "checksum verification failed").1 h
    exact ⟨hf.1, hf.2, hs.1, hs.2⟩
  · intro fs0 saved0 env opts owner repo v0 rel bytes d
      hload hcfg hparsed hfetched hfa htmp hdl hfind hdlc hman harch hne hpass
    unfold Install.Run
    dsimp only
    rcases hpass with hyes | ⟨hry, hpn⟩
    · simp only [hload, hcfg, hparsed, hfetched, hyes, Bool.not_true, Bool.false_and,
        Bool.and_false, Bool.false_eq_true, if_false]
      exact Install.pipeline_mismatch_result _ _ _ _ _ _ _ _ _ _ bytes d
        hfa htmp hdl hfind hdlc hman harch hne
    · simp only [hload, hcfg, hparsed, hfetched, hry, hpn, Bool.not_true, Bool.and_false,
        Bool.false_eq_true, if_false]
      exact Install.pipeline_mismatch_result _ _ _ _ _ _ _ _ _ _ bytes d
        hfa htmp hdl hfind hdlc hman harch hne

/-- C2 witness: the concrete mismatch run — registry and filesystem
untouched and the checksum error returned. -/
theorem C2_checksum_mismatch_witness :
    (Install.Run exFsPrior exRegPrior exInstallEnvMismatch
        { source := "s", into := "", yes := true }).result =
      Except.error "checksum verification failed" ∧
    (Install.Run exFsPrior exRegPrior exInstallEnvMismatch
        { source := "s", into := "", yes := true }).fs = exFsPrior ∧
    (Install.Run exFsPrior exRegPrior exInstallEnvMismatch
        { source := "s", into := "", yes := true }).saved = exRegPrior := by
  have hres := C2_checksum_mismatch_never_mutates.2 exFsPrior exRegPrior exInstallEnvMismatch
    { source := "s", into := "", yes := true } "o" "app" "" exRelease [7, 7] "999"
    (by decide) (by decide) (by decide) (by decide) (by decide) (by decide) (by decide)
    (by decide) (by decide) (by decide) (by decide) (by decide) (Or.inl (by decide))
  have hfr := C2_checksum_mismatch_never_mutates.1 exFsPrior exRegPrior exInstallEnvMismatch
    { source := "s", into := "", yes := true } hres
  exact ⟨hres, hfr.1, hfr.2.2.1⟩

/-- C7: a duplicate install request (requested version equals the
recorded one): (a) the pipeline is not re-executed when the operator is
asked and does not confirm — so with `assumeYes=false` it runs only after
an explicit confirmation; (b) in that case the run cancels cleanly: `nil`
result, exactly the reinstall question asked, registry and filesystem
untouched, nothing committed; (c) with `assumeYes=true` no prompt is ever
issued; (d) with `assumeYes=true` the pipeline proceeds. -/
theorem C7_duplicate_install_requires_confirmation :
    (∀ (fs0 : FS) (saved0 : Registry) (env : Install.Env) (opts : Install.Options)
        (owner repo v0 : String) (rel : Release) (ex : Executable),
      env.parsed = some (owner, repo, v0) →
      env.fetchedRelease = some rel →
      regGet saved0 repo = some ex →
      ex.version = (if v0 == "" then rel.tagName else v0) →
      opts.yes = false →
      respIsYes env.reinstallResponse = false →
      (Install.Run fs0 saved0 env opts).pipelineRan = false) ∧
    (∀ (fs0 : FS) (saved0 : Registry) (env : Install.Env) (opts : Install.Options)
        (owner repo v0 : String) (rel : Release) (ex : Executable),
      env.loadOk = true → env.configOk = true →
      env.parsed = some (owner, repo, v0) →
      env.fetchedRelease = some rel →
      regGet saved0 repo = some ex →
      ex.version = (if v0 == "" then rel.tagName else v0) →
      opts.yes = false →
      respIsYes env.reinstallResponse = false →
      (Install.Run fs0 saved0 env opts).result = Except.ok () ∧
      (Install.Run fs0 saved0 env opts).saved = saved0 ∧
      (Install.Run fs0 saved0 env opts).fs = fs0 ∧
      (Install.Run fs0 saved0 env opts).committed = none ∧
      (Install.Run fs0 saved0 env opts).prompts = ["Reinstall? (y/N): "]) ∧
    (∀ (fs0 : FS) (saved0 : Registry) (env : Install.Env) (opts : Install.Options),
      opts.yes = true → (Install.Run fs0 saved0 env opts).prompts = []) ∧
    (∀ (fs0 : FS) (saved0 : Registry) (env : Install.Env) (opts : Install.Options)
        (owner repo v0 : String) (rel : Release),
      opts.yes = true → env.loadOk = true → env.configOk = true →
      env.parsed = some (owner, repo, v0) →
      env.fetchedRelease = some rel →
      (Install.Run fs0 saved0 env opts).pipelineRan = true) := by
  refine ⟨?_, ?_, ?_, ?_⟩
  · intro fs0 saved0 env opts owner repo v0 rel ex hparsed hfetched hreg hver hyes hry
    unfold Install.Run
    dsimp only
    repeat' split
    all_goals simp_all [regGet]
  · intro fs0 saved0 env opts owner repo v0 rel ex hload hcfg hparsed hfetched hreg hver hyes hry
    have hbeq : (ex.version == if (v0 == "") = true then rel.tagName else v0) = true := by
      simp [hver]
    simp only [Install.Run, hload, hcfg, hparsed, hfetched, hreg, hbeq, hyes, hry,
      Bool.not_true, Bool.not_false, Bool.and_true, Bool.true_and, Bool.and_false,
      Bool.false_eq_true, Bool.true_eq_false, if_false, if_true, Bool.and_self]
    simp
  · intro fs0 saved0 env opts hyes
    unfold Install.Run
    dsimp only
    repeat' split
    all_goals first
      | rfl
      | (rw [Install.pipeline_prompts]; simp_all)
      | simp_all
  · intro fs0 saved0 env opts owner repo v0 rel hyes hload hcfg hparsed hfetched
    unfold Install.Run
    dsimp only
    simp only [hload, hcfg, hparsed, hfetched, hyes, Bool.not_true, Bool.false_and,
      Bool.and_false, Bool.false_eq_true, if_false]
    exact Install.pipeline_pipelineRan _ _ _ _ _ _ _ _ _ _

/-- C7 witness: the concrete duplicate install of `app` at the recorded
version `v1`: with a `n` answer it cancels after exactly the reinstall
question; with `--yes` no prompt is issued and the pipeline runs. -/
theorem C7_duplicate_install_witness :
    (Install.Run exFsPrior exRegPrior exInstallEnvDupNo
        { source := "s", into := "", yes := false }).result = Except.ok () ∧
    (Install.Run exFsPrior exRegPrior exInstallEnvDupNo
        { source := "s", into := "", yes := false }).prompts = ["Reinstall? (y/N): "] ∧
    (Install.Run exFsPrior exRegPrior exInstallEnvDupNo
        { source := "s", into := "", yes := false }).pipelineRan = false ∧
    (Install.Run exFsPrior exRegPrior exInstallEnv
        { source := "s", into := "", yes := true }).prompts = [] ∧
    (Install.Run exFsPrior exRegPrior exInstallEnv
        { source := "s", into := "", yes := true }).pipelineRan = true := by
  have hb := C7_duplicate_install_requires_confirmation.2.1 exFsPrior exRegPrior
    exInstallEnvDupNo { source := "s", into := "", yes := false } "o" "app" "v1" exRelease
    { source := "https://github.com/o/app", version := "v1", installedAt := 1,
      path := "/usr/local/bin/app", platform := "linux/amd64", checksum := exHash [1, 2, 3] }
    (by decide) (by decide) (by decide) (by decide) (by decide) (by decide) (by decide)
    (by decide)
  have ha := C7_duplicate_install_requires_confirmation.1 exFsPrior exRegPrior
    exInstallEnvDupNo { source := "s", into := "", yes := false } "o" "app" "v1" exRelease
    { source := "https://github.com/o/app", version := "v1", installedAt := 1,
      path := "/usr/local/bin/app", platform := "linux/amd64", checksum := exHash [1, 2, 3] }
    (by decide) (by decide) (by decide) (by decide) (by decide) (by decide)
  have hc := C7_duplicate_install_requires_confirmation.2.2.1 exFsPrior exRegPrior
    exInstallEnv { source := "s", into := "", yes := true } (by decide)
  have hd := C7_duplicate_install_requires_confirmation.2.2.2 exFsPrior exRegPrior
    exInstallEnv { source := "s", into := "", yes := true } "o" "app" "" exRelease
    (by decide) (by decide) (by decide) (by decide) (by decide)
  exact ⟨hb.1, hb.2.2.2.2, ha, hc, hd⟩

/-- C4 counterexample: when the recorded install path is a *dangling*
symlink (the link exists, its target does not), a non-interactive
(`--yes`) update does not fail with the symlink error: the stat existence
check classifies the path as missing, the run enters the reinstall
sub-flow, silently replaces the symlink with a regular file and commits —
no prompt, no error. -/
theorem C4_counterexample_dangling_symlink_update_proceeds :
    exFsDangling.isLink "/bin/lnk" = true ∧
    (regGet exRegDangling "a").map (fun e => e.path) = some "/bin/lnk" ∧
    (Update.updateOne exFsDangling exRegDangling exRegDangling "a" true exUpdateEnv).result =
      Except.ok () ∧
    (Update.updateOne exFsDangling exRegDangling exRegDangling "a" true exUpdateEnv).updated =
      true ∧
    (Update.updateOne exFsDangling exRegDangling exRegDangling "a" true exUpdateEnv).prompts =
      [] ∧
    (Update.updateOne exFsDangling exRegDangling exRegDangling "a" true
      exUpdateEnv).committed ≠ none := by
  refine ⟨by decide, by decide, by decide, by decide, by decide, by decide⟩

/-- C4 amended: in non-interactive mode (`assumeYes=true`), an update
whose recorded path is a symlink *passing the stat existence check*, and
a removal whose recorded path is a symlink (dangling or not), fail with
the explicit non-interactive error, issue no prompt and leave the
filesystem and persisted registry untouched; the error message names both
the symlink path and its resolved target.  (A dangling symlink on update
instead enters the missing-executable reinstall flow — see the
counterexample.) -/
theorem C4_amended_non_interactive_symlink_fails :
    (∀ (fs0 : FS) (reg0 saved0 : Registry) (name : String) (env : Update.Env)
        (exec : Executable) (t : String),
      regGet reg0 name = some exec →
      fs0.readLink exec.path = some t →
      fs0.statExists exec.path = true →
      (Update.updateOne fs0 reg0 saved0 name true env).result =
        Except.error (errorNonInteractiveMsg exec.path t) ∧
      (Update.updateOne fs0 reg0 saved0 name true env).prompts = [] ∧
      (Update.updateOne fs0 reg0 saved0 name true env).saved = saved0 ∧
      (Update.updateOne fs0 reg0 saved0 name true env).fs = fs0 ∧
      (Update.updateOne fs0 reg0 saved0 name true env).committed = none) ∧
    (∀ (fs0 : FS) (reg0 saved0 : Registry) (name : String) (env : Remove.Env)
        (exec : Executable) (t : String),
      regGet reg0 name = some exec →
      fs0.readLink exec.path = some t →
      (Remove.Remove fs0 reg0 saved0 name true env).result =
        Except.error (errorNonInteractiveMsg exec.path t) ∧
      (Remove.Remove fs0 reg0 saved0 name true env).prompts = [] ∧
      (Remove.Remove fs0 reg0 saved0 name true env).saved = saved0 ∧
      (Remove.Remove fs0 reg0 saved0 name true env).fs = fs0) ∧
    (∀ p t : String, ∃ y z : String,
      errorNonInteractiveMsg p t = p ++ y ++ t ++ z) := by
  refine ⟨?_, ?_, ?_⟩
  · intro fs0 reg0 saved0 name env exec t hreg hlk hst
    unfold Update.updateOne
    dsimp only
    simp only [hreg, hst, check, hlk, Bool.not_true, Bool.false_eq_true, if_false]
    exact ⟨rfl, rfl, rfl, rfl, rfl⟩
  · intro fs0 reg0 saved0 name env exec t hreg hlk
    unfold Remove.Remove
    dsimp only
    simp only [hreg, check, hlk]
    exact ⟨rfl, rfl, rfl, rfl⟩
  · intro p t
    exact ⟨" is a symlink to ",
      "\n       Cannot proceed in non-interactive mode.\n       Run without --yes to choose how to handle symlinks",
      rfl⟩

/-- C4 witness: the amended statement applied to a registry entry whose
path `/bin/a` is a symlink to the existing `/opt/real`, for both the
update and the remove engines. -/
theorem C4_amended_non_interactive_witness :
    (Update.updateOne exFsLinked exRegABC exRegABC "a" true exUpdateEnv).result =
      Except.error (errorNonInteractiveMsg "/bin/a" "/opt/real") ∧
    (Update.updateOne exFsLinked exRegABC exRegABC "a" true exUpdateEnv).prompts = [] ∧
    (Remove.Remove exFsLinked exRegABC exRegABC "a" true exRemoveEnv).result =
      Except.error (errorNonInteractiveMsg "/bin/a" "/opt/real") ∧
    (∃ y z : String, errorNonInteractiveMsg "/bin/a" "/opt/real" =
      "/bin/a" ++ y ++ "/opt/real" ++ z) := by
  have hu := C4_amended_non_interactive_symlink_fails.1 exFsLinked exRegABC exRegABC "a"
    exUpdateEnv { exRecA with path := "/bin/a" } "/opt/real" (by decide) (by decide) (by decide)
  have hr := C4_amended_non_interactive_symlink_fails.2.1 exFsLinked exRegABC exRegABC "a"
    exRemoveEnv { exRecA with path := "/bin/a" } "/opt/real" (by decide) (by decide)
  have hm := C4_amended_non_interactive_symlink_fails.2.2 "/bin/a" "/opt/real"
  exact ⟨hu.1, hu.2.1, hr.1, hm⟩

/-! ### C1 helper lemmas -/

set_option maxHeartbeats 1000000

/-- A successful `copyFile` never changes the symlink table. -/
theorem copyFile_links (fs : FS) (srcPath dstPath : String) (fs' : FS)
    (h : copyFile fs srcPath dstPath = some fs') : fs'.links = fs.links := by
  unfold copyFile at h
  cases hrb : fs.readBytes srcPath with
  | none => rw [hrb] at h; simp at h
  | some data =>
    rw [hrb] at h
    simp only [Option.some.injEq] at h
    rw [← h]
    rfl

/-- The optional-backup step never changes the symlink table. -/
theorem backed_links (fs0 : FS) (eff b : String) (cb : Bool) (fs1 : FS)
    (h : (if cb = true then copyFile fs0 eff b else some fs0) = some fs1) :
    fs1.links = fs0.links := by
  by_cases hcb : cb = true
  · rw [if_pos hcb] at h
    exact copyFile_links fs0 eff b fs1 h
  · rw [if_neg hcb] at h
    simp only [Option.some.injEq] at h
    rw [← h]

/-- After the update engine's remove-then-write of `bin` at the effective
path `eff` (where the recorded path `p` either equals `eff` or is a
symlink to it), reading the recorded path or the effective path yields
exactly the written bytes — and the later copy of the archive to the
current directory (at the asset's name, which aliases neither path)
preserves that. -/
theorem readBytes_after_install_write (fs0 fs1 : FS) (p eff aname : String)
    (bin arch : Content)
    (hlinks1 : fs1.links = fs0.links)
    (hpe : eff = p ∨ (fs0.readLink p = some eff ∧ fs0.isLink eff = false))
    (_hA1 : ¬ aname = p) (hA2 : ¬ aname = eff)
    (hA3 : ¬ fs0.resolve aname = p) (hA4 : ¬ fs0.resolve aname = eff)
    (v : String) (hv : v = eff ∨ v = p) :
    ((fs1.removePath eff).writeFile eff bin).readBytes v = some bin ∧
    (((fs1.removePath eff).writeFile eff bin).writeFile aname arch).readBytes v = some bin := by
  have hrl1 : ∀ q, fs1.readLink q = fs0.readLink q := by
    intro q; unfold FS.readLink; rw [hlinks1]
  have hrb_eff : ((fs1.removePath eff).writeFile eff bin).readBytes eff = some bin :=
    FS.readBytes_replace_self fs1 eff bin
  have hrb_p : ((fs1.removePath eff).writeFile eff bin).readBytes p = some bin := by
    rcases hpe with hpe1 | ⟨hlk, hnl⟩
    · rw [← hpe1]; exact hrb_eff
    · exact FS.readBytes_replace_via_link fs1 p eff bin
        (by rw [hrl1]; exact hlk)
        (by unfold FS.isLink; rw [hrl1]; exact hnl)
  have hrb_v : ((fs1.removePath eff).writeFile eff bin).readBytes v = some bin := by
    rcases hv with hv1 | hv1
    · rw [hv1]; exact hrb_eff
    · rw [hv1]; exact hrb_p
  refine ⟨hrb_v, ?_⟩
  have hrl3ne : ∀ q, q ≠ eff →
      ((fs1.removePath eff).writeFile eff bin).readLink q = fs0.readLink q := by
    intro q hq
    rw [FS.readLink_writeFile]
    rw [FS.readLink_removePath_ne fs1 eff q hq]
    exact hrl1 q
  have hrl3eff : ((fs1.removePath eff).writeFile eff bin).readLink eff = none := by
    rw [FS.readLink_writeFile]
    exact FS.readLink_removePath_self fs1 eff
  have hres_a : ((fs1.removePath eff).writeFile eff bin).resolve aname = fs0.resolve aname := by
    unfold FS.resolve
    rw [hrl3ne aname hA2]
  have hres_eff : ((fs1.removePath eff).writeFile eff bin).resolve eff = eff := by
    unfold FS.resolve
    rw [hrl3eff]
  have hres_v : ((fs1.removePath eff).writeFile eff bin).resolve v = eff ∨
      ((fs1.removePath eff).writeFile eff bin).resolve v = p := by
    rcases hv with hv1 | hv1
    · left; rw [hv1]; exact hres_eff
    · rcases hpe with hpe1 | ⟨hlk, hnl⟩
      · left
        rw [hv1, ← hpe1]
        exact hres_eff
      · left
        have hpne : p ≠ eff := by
          intro hcon
          rw [hcon] at hlk
          unfold FS.isLink at hnl
          rw [hlk] at hnl
          simp at hnl
        rw [hv1]
        unfold FS.resolve
        rw [hrl3ne p hpne, hlk]
  have hneq : ((fs1.removePath eff).writeFile eff bin).resolve v ≠
      ((fs1.removePath eff).writeFile eff bin).resolve aname := by
    rw [hres_a]
    rcases hres_v with hv2 | hv2 <;> rw [hv2]
    · exact fun hcon => hA4 hcon.symm
    · exact fun hcon => hA3 hcon.symm
  rw [FS.readBytes_writeFile_ne _ aname v arch hneq]
  exact hrb_v

/-- A committed install pipeline run records as checksum exactly the hash
of the bytes readable at the committed entry's path. -/
theorem Install.pipeline_commit_checksum (fs0 : FS) (saved0 : Registry) (env : Install.Env)
    (release : Release) (owner repo version execName targetPath : String)
    (prompts : List String) (n : String) (e : Executable)
    (h : (Install.pipeline fs0 saved0 env release owner repo version execName targetPath
      prompts).committed = some (n, e)) :
    ∃ c, (Install.pipeline fs0 saved0 env release owner repo version execName targetPath
      prompts).fs.readBytes e.path = some c ∧ e.checksum = env.hash c := by
  unfold Install.pipeline at h ⊢
  dsimp only at h ⊢
  repeat' split at h
  all_goals try simp_all
  obtain ⟨hn, he⟩ := h
  subst he
  exact ⟨_, by assumption, rfl⟩

/-- A committed `install.Run` records as checksum exactly the hash of the
bytes readable at the committed entry's path. -/
theorem Install.Run_commit_checksum (fs0 : FS) (saved0 : Registry) (env : Install.Env)
    (opts : Install.Options) (n : String) (e : Executable)
    (h : (Install.Run fs0 saved0 env opts).committed = some (n, e)) :
    ∃ c, (Install.Run fs0 saved0 env opts).fs.readBytes e.path = some c ∧
      e.checksum = env.hash c := by
  unfold Install.Run at h ⊢
  dsimp only at h ⊢
  repeat' split at h
  all_goals try simp_all
  all_goals exact Install.pipeline_commit_checksum _ _ _ _ _ _ _ _ _ _ _ _ h

/-- A committed update install phase records as checksum exactly the hash
of the bytes readable at the committed entry's path, provided the
recorded path and the effective path are related as the symlink
resolution produces them and the selected asset's name aliases
neither. -/
theorem Update.installPhase_commit_checksum
    (fs0 : FS) (reg0 saved0 : Registry) (name : String) (exec : Executable)
    (release : Release) (newVersion effectivePath : String)
    (replacedSymlink createBackup yes : Bool) (env : Update.Env)
    (prompts0 : List String) (n : String) (e : Executable)
    (hpe : effectivePath = exec.path ∨
      (fs0.readLink exec.path = some effectivePath ∧ fs0.isLink effectivePath = false))
    (hA : ∀ a : Asset, env.findAsset release.assets = some a →
      a.name ≠ exec.path ∧ a.name ≠ effectivePath ∧
      fs0.resolve a.name ≠ exec.path ∧ fs0.resolve a.name ≠ effectivePath)
    (h : (Update.installPhase fs0 reg0 saved0 name exec release newVersion effectivePath
      replacedSymlink createBackup yes env prompts0).committed = some (n, e)) :
    ∃ c, (Update.installPhase fs0 reg0 saved0 name exec release newVersion effectivePath
      replacedSymlink createBackup yes env prompts0).fs.readBytes e.path = some c ∧
      e.checksum = env.hash c := by
  unfold Update.installPhase at h ⊢
  dsimp only at h ⊢
  repeat' split at h
  all_goals try simp_all
  all_goals obtain ⟨hn, he⟩ := h
  all_goals subst he
  all_goals refine ⟨_, ?_, rfl⟩
  all_goals dsimp only
  all_goals
    have hlinks1 :=
      backed_links fs0 effectivePath (effectivePath ++ ".backup") createBackup _ (by assumption)
  all_goals first
    | exact (readBytes_after_install_write fs0 _ exec.path effectivePath _ _ _ hlinks1 hpe
        hA.1 hA.2.1 hA.2.2.1 hA.2.2.2 _ (Or.inl rfl)).2
    | exact (readBytes_after_install_write fs0 _ exec.path effectivePath _ _ _ hlinks1 hpe
        hA.1 hA.2.1 hA.2.2.1 hA.2.2.2 _ (Or.inr rfl)).2
    | exact (readBytes_after_install_write fs0 _ exec.path effectivePath _ _ [] hlinks1 hpe
        hA.1 hA.2.1 hA.2.2.1 hA.2.2.2 _ (Or.inl rfl)).1
    | exact (readBytes_after_install_write fs0 _ exec.path effectivePath _ _ [] hlinks1 hpe
        hA.1 hA.2.1 hA.2.2.1 hA.2.2.2 _ (Or.inr rfl)).1

/-- Lift of the commit/checksum fact through the present-executable flow. -/
theorem Update.presentFlow_commit_checksum
    (fs0 : FS) (reg0 saved0 : Registry) (name : String) (exec : Executable)
    (effectivePath : String) (replacedSymlink yes : Bool) (env : Update.Env)
    (prompts0 : List String) (n : String) (e : Executable)
    (hpe : effectivePath = exec.path ∨
      (fs0.readLink exec.path = some effectivePath ∧ fs0.isLink effectivePath = false))
    (hA : ∀ (l : List Asset) (a : Asset), env.findAsset l = some a →
      a.name ≠ exec.path ∧ a.name ≠ effectivePath ∧
      fs0.resolve a.name ≠ exec.path ∧ fs0.resolve a.name ≠ effectivePath)
    (h : (Update.presentFlow fs0 reg0 saved0 name exec effectivePath replacedSymlink yes env
      prompts0).committed = some (n, e)) :
    ∃ c, (Update.presentFlow fs0 reg0 saved0 name exec effectivePath replacedSymlink yes env
      prompts0).fs.readBytes e.path = some c ∧ e.checksum = env.hash c := by
  unfold Update.presentFlow at h ⊢
  dsimp only at h ⊢
  repeat' split at h
  all_goals try simp_all
  all_goals exact (Update.installPhase_commit_checksum _ _ _ _ _ _ _ _ _ _ _ _ _ _ _
    hpe (fun a ha => hA _ a ha) h)

/-- Lift of the commit/checksum fact through the missing-executable
reinstall flow (the effective path is the recorded path there). -/
theorem Update.missingFlow_commit_checksum
    (fs0 : FS) (reg0 saved0 : Registry) (name : String) (exec : Executable)
    (yes : Bool) (env : Update.Env) (n : String) (e : Executable)
    (hA : ∀ (l : List Asset) (a : Asset), env.findAsset l = some a →
      a.name ≠ exec.path ∧ fs0.resolve a.name ≠ exec.path)
    (h : (Update.missingFlow fs0 reg0 saved0 name exec yes env).committed = some (n, e)) :
    ∃ c, (Update.missingFlow fs0 reg0 saved0 name exec yes env).fs.readBytes e.path = some c ∧
      e.checksum = env.hash c := by
  unfold Update.missingFlow at h ⊢
  dsimp only at h ⊢
  repeat' split at h
  all_goals try simp_all
  all_goals exact (Update.installPhase_commit_checksum _ _ _ _ _ _ _ _ _ _ _ _ _ _ _
    (Or.inl rfl)
    (fun a ha => ⟨(hA _ a ha).1, (hA _ a ha).1, (hA _ a ha).2, (hA _ a ha).2⟩) h)

/-- A committed `updateOne` records as checksum exactly the hash of the
bytes readable at the committed entry's recorded path (registry paths and
the selected asset name must not alias pathologically: the resolved
recorded path is not itself a symlink, and the asset name resolves to
neither the recorded path nor its target). -/
theorem Update.updateOne_commit_checksum
    (fs0 : FS) (reg0 saved0 : Registry) (name : String) (yes : Bool) (env : Update.Env)
    (exec : Executable) (n : String) (e : Executable)
    (hreg : regGet reg0 name = some exec)
    (hT : fs0.isLink (fs0.resolve exec.path) = false)
    (hA : ∀ (l : List Asset) (a : Asset), env.findAsset l = some a →
      a.name ≠ exec.path ∧ a.name ≠ fs0.resolve exec.path ∧
      fs0.resolve a.name ≠ exec.path ∧ fs0.resolve a.name ≠ fs0.resolve exec.path)
    (h : (Update.updateOne fs0 reg0 saved0 name yes env).committed = some (n, e)) :
    ∃ c, (Update.updateOne fs0 reg0 saved0 name yes env).fs.readBytes e.path = some c ∧
      e.checksum = env.hash c := by
  unfold Update.updateOne at h ⊢
  dsimp only at h ⊢
  simp only [hreg] at h ⊢
  cases hst : fs0.statExists exec.path with
  | false =>
    simp only [hst, if_pos rfl] at h ⊢
    exact (Update.missingFlow_commit_checksum _ _ _ _ _ _ _ _ _
      (fun l a ha => ⟨(hA l a ha).1, (hA l a ha).2.2.1⟩) h)
  | true =>
    simp only [hst, Bool.true_eq_false, if_false] at h ⊢
    cases hlk : fs0.readLink exec.path with
    | none =>
      simp only [check, hlk] at h ⊢
      exact (Update.presentFlow_commit_checksum _ _ _ _ _ _ _ _ _ _ _ _
        (Or.inl rfl)
        (fun l a ha => ⟨(hA l a ha).1, (hA l a ha).1, (hA l a ha).2.2.1, (hA l a ha).2.2.1⟩) h)
    | some t =>
      have hres : fs0.resolve exec.path = t := FS.resolve_of_readLink fs0 exec.path t hlk
      rw [hres] at hT hA
      simp only [check, hlk] at h ⊢
      cases yes with
      | true => simp at h
      | false =>
        cases hpa : promptAction env.symlinkResponse with
        | actionCancel => simp [hpa] at h
        | actionReplaceTarget =>
          simp only [hpa, resolveTarget] at h ⊢
          simp only [show (SymlinkAction.actionReplaceTarget ==
              SymlinkAction.actionCancel) = false from rfl,
            show (SymlinkAction.actionReplaceTarget ==
              SymlinkAction.actionReplaceTarget) = true from rfl,
            show (SymlinkAction.actionReplaceTarget ==
              SymlinkAction.actionReplaceSymlink) = false from rfl,
            Bool.false_eq_true, if_false, if_true] at h ⊢
          exact (Update.presentFlow_commit_checksum _ _ _ _ _ _ _ _ _ _ _ _
            (Or.inr ⟨hlk, hT⟩)
            (fun l a ha => ⟨(hA l a ha).1, (hA l a ha).2.1, (hA l a ha).2.2.1,
              (hA l a ha).2.2.2⟩) h)
        | actionReplaceSymlink =>
          simp only [hpa, resolveTarget] at h ⊢
          simp only [show (SymlinkAction.actionReplaceSymlink ==
              SymlinkAction.actionCancel) = false from rfl,
            show (SymlinkAction.actionReplaceSymlink ==
              SymlinkAction.actionReplaceTarget) = false from rfl,
            Bool.false_eq_true, if_false] at h ⊢
          exact (Update.presentFlow_commit_checksum _ _ _ _ _ _ _ _ _ _ _ _
            (Or.inl rfl)
            (fun l a ha => ⟨(hA l a ha).1, (hA l a ha).1, (hA l a ha).2.2.1,
              (hA l a ha).2.2.1⟩) h)

/-- C1: for every install or update operation that completes successfully
(commits a registry entry), the checksum recorded in the committed entry
equals the content hash of the bytes at the entry's recorded path
immediately after the operation (for updates, under non-aliasing side
conditions: the resolved recorded path is not itself a symlink and the
selected asset's name resolves to neither the recorded path nor its
target — archive filenames never alias install paths in practice). -/
theorem C1_committed_checksum_matches_bytes :
    (∀ (fs0 : FS) (saved0 : Registry) (env : Install.Env) (opts : Install.Options)
        (n : String) (e : Executable),
      (Install.Run fs0 saved0 env opts).committed = some (n, e) →
      ∃ c, (Install.Run fs0 saved0 env opts).fs.readBytes e.path = some c ∧
        e.checksum = env.hash c) ∧
    (∀ (fs0 : FS) (reg0 saved0 : Registry) (name : String) (yes : Bool) (env : Update.Env)
        (exec : Executable) (n : String) (e : Executable),
      regGet reg0 name = some exec →
      fs0.isLink (fs0.resolve exec.path) = false →
      (∀ (l : List Asset) (a : Asset), env.findAsset l = some a →
        a.name ≠ exec.path ∧ a.name ≠ fs0.resolve exec.path ∧
        fs0.resolve a.name ≠ exec.path ∧ fs0.resolve a.name ≠ fs0.resolve exec.path) →
      (Update.updateOne fs0 reg0 saved0 name yes env).committed = some (n, e) →
      ∃ c, (Update.updateOne fs0 reg0 saved0 name yes env).fs.readBytes e.path = some c ∧
        e.checksum = env.hash c) :=
  ⟨fun fs0 saved0 env opts n e h =>
      Install.Run_commit_checksum fs0 saved0 env opts n e h,
   fun fs0 reg0 saved0 name yes env exec n e hreg hT hA h =>
      Update.updateOne_commit_checksum fs0 reg0 saved0 name yes env exec n e hreg hT hA h⟩

/-- C1 witness: the concrete non-interactive install of `o/app` and the
concrete non-interactive update of `a`, both committing entries whose
checksum is the hash of the bytes now readable at the recorded path. -/
theorem C1_committed_checksum_witness :
    (∃ c, (Install.Run exFsPrior exRegPrior exInstallEnv
        { source := "s", into := "", yes := true }).fs.readBytes exInstallCommitted.path =
        some c ∧ exInstallCommitted.checksum = exInstallEnv.hash c) ∧
    (∃ c, (Update.updateOne exFsABC exRegABC exRegABC "a" true
        exUpdateEnvConstAsset).fs.readBytes exUpdateCommitted.path = some c ∧
      exUpdateCommitted.checksum = exUpdateEnvConstAsset.hash c) :=
  ⟨C1_committed_checksum_matches_bytes.1 exFsPrior exRegPrior exInstallEnv
      { source := "s", into := "", yes := true } "app" exInstallCommitted (by decide),
   C1_committed_checksum_matches_bytes.2 exFsABC exRegABC exRegABC "a" true
      exUpdateEnvConstAsset { exRecA with path := "/bin/a" } "a" exUpdateCommitted
      (by decide) (by decide)
      (by intro l a ha
          injection ha with h2
          subst h2
          refine ⟨by decide, by decide, by decide, by decide⟩)
      (by decide)⟩

end Execman
